import Mathlib

/-!
Shallow embedding of the `name-change` Telegram moderation bot
(`src/main.py`, `src/database.py`, `src/handlers/event_handlers.py`).

The embedding models:
* the diff engine of `NameChangeBot.handle_name_change` (full-name
  concatenation compare plus exact username compare),
* the blocklist matcher (`scam_name.lower() in full_name.lower()`),
* the effect traces of `handle_name_change` and `handle_user_join`
  (history rows, ban/kick attempts, identity update, admin alert),
* the SQLite state store of `Database` (`users`, `groups`, `user_groups`,
  `name_changes`) with the operations `register_user`,
  `add_user_to_group`, `remove_user_from_group`, `update_user`,
  `register_group`.

Python truthiness (`x or d`) and `str.strip()` are modelled explicitly.
-/

/-- Python's `x or d` for an optional string: `None` and `""` are falsy,
so both are replaced by the default `d` (`user.first_name or "Unknown"`,
`user.last_name or ""`, `user.username or ""` in `main.py`). -/
def pyOr (x : Option String) (d : String) : String :=
  match x with
  | none => d
  | some s => if s = "" then d else s

/-- Python's `str.strip()` on a character list: drop whitespace from both
ends. -/
def stripChars (l : List Char) : List Char :=
  ((l.dropWhile Char.isWhitespace).reverse.dropWhile Char.isWhitespace).reverse

/-- Python's `str.strip()`. -/
def pyStrip (s : String) : String :=
  ⟨stripChars s.data⟩

/-- A row of the `users` table as read back by `Database.get_user`.  All
writers in `main.py` store plain strings (`last_name`/`username` default
to `""`), so the stored identity is a triple of strings. -/
structure StoredUser where
  first_name : String
  last_name : String
  username : String
deriving DecidableEq

/-- The freshly observed Telethon `User` profile: each of the three
fields may be `None`. -/
structure ObservedUser where
  first_name : Option String
  last_name : Option String
  username : Option String
deriving DecidableEq

/-- `f"{existing_user['first_name']} {existing_user['last_name']}".strip()`
(main.py line 112). -/
def oldFullName (s : StoredUser) : String :=
  pyStrip (s.first_name ++ " " ++ s.last_name)

/-- `f"{user.first_name or 'Unknown'} {user.last_name or ''}".strip()`
(main.py line 113). -/
def newFullName (o : ObservedUser) : String :=
  pyStrip (pyOr o.first_name "Unknown" ++ " " ++ pyOr o.last_name "")

/-- The `changes` list built by `handle_name_change` (main.py lines
110-127): one entry when the concatenated full names differ, one entry
when the stored username differs from the observed one.  The username
comparison `existing_user['username'] != user.username` compares a
string with an optional string, so a stored `""` differs from an
observed `None`. -/
def computeChanges (s : StoredUser) (o : ObservedUser) :
    List (String × String × String) :=
  (if oldFullName s ≠ newFullName o then
    [("Full Name", oldFullName s, newFullName o)] else [])
  ++ (if o.username ≠ some s.username then
    [("Username", pyOr (some s.username) "none", pyOr o.username "none")]
    else [])

/-- The spec's field-by-field comparison (§4.1 / claim C1): the stored and
observed identities agree field by field after `None`/empty is normalized
to `""`, except that a missing observed first name becomes `"Unknown"`. -/
def specFieldsEqual (s : StoredUser) (o : ObservedUser) : Prop :=
  s.first_name = pyOr o.first_name "Unknown" ∧
  s.last_name = pyOr o.last_name "" ∧
  s.username = pyOr o.username ""

instance (s : StoredUser) (o : ObservedUser) :
    Decidable (specFieldsEqual s o) := by
  unfold specFieldsEqual; infer_instance

/-- The stored identity written back by `handle_name_change` after a
non-empty delta (`register_user` call, main.py lines 205-211). -/
def updatedStored (o : ObservedUser) : StoredUser :=
  ⟨pyOr o.first_name "Unknown", pyOr o.last_name "", pyOr o.username ""⟩

/-- The stored identity after one pass of `handle_name_change` over
stored identity `s` and observed identity `o`: with no detected change
the handler does nothing (main.py lines 229-230); with changes but no
active group it returns before touching the store (main.py lines
135-137); only otherwise does `register_user` write the observed
identity back (main.py lines 205-211). -/
def storedAfter (s : StoredUser) (o : ObservedUser) (hasGroups : Bool) :
    StoredUser :=
  if (computeChanges s o).isEmpty then s
  else if hasGroups then updatedStored o
  else s

/-- `needle` is a literal prefix of `hay` (character by character). -/
def prefAt : List Char → List Char → Bool
  | [], _ => true
  | _ :: _, [] => false
  | n :: ns, h :: hs => (n == h) && prefAt ns hs

/-- Python's substring test `needle in hay`: scan every suffix of `hay`
for `needle` as a prefix. -/
def containsSub (needle : List Char) : List Char → Bool
  | [] => prefAt needle []
  | h :: t => prefAt needle (h :: t) || containsSub needle t

/-- The blocklist matcher of `handle_name_change` (main.py lines
144-151): flagged iff some scam name, lowercased, is a substring of the
lowercased full name. -/
def isFlagged (fullName : String) (blocklist : List String) : Bool :=
  blocklist.any fun b => containsSub b.toLower.data fullName.toLower.data

theorem prefAt_iff (n h : List Char) :
    prefAt n h = true ↔ ∃ t, h = n ++ t := by
  induction n generalizing h with
  | nil => simp [prefAt]
  | cons a as ih =>
    cases h with
    | nil =>
      simp [prefAt]
    | cons b bs =>
      simp only [prefAt, Bool.and_eq_true, beq_iff_eq, ih, List.cons_append]
      constructor
      · rintro ⟨rfl, t, rfl⟩; exact ⟨t, rfl⟩
      · rintro ⟨t, ht⟩
        injection ht with h1 h2
        exact ⟨h1.symm, t, h2⟩

theorem containsSub_iff (n h : List Char) :
    containsSub n h = true ↔ ∃ pre post, h = pre ++ n ++ post := by
  induction h with
  | nil =>
    simp only [containsSub, prefAt_iff]
    constructor
    · rintro ⟨t, ht⟩; exact ⟨[], t, by simpa using ht⟩
    · rintro ⟨pre, post, hp⟩
      rcases List.append_eq_nil.mp hp.symm with ⟨h1, h2⟩
      rcases List.append_eq_nil.mp h1 with ⟨h3, h4⟩
      exact ⟨[], by simp [h4]⟩
  | cons a t ih =>
    simp only [containsSub, Bool.or_eq_true, prefAt_iff, ih]
    constructor
    · rintro (⟨s, hs⟩ | ⟨pre, post, hp⟩)
      · exact ⟨[], s, by simpa using hs⟩
      · exact ⟨a :: pre, post, by simp [hp]⟩
    · rintro ⟨pre, post, hp⟩
      cases pre with
      | nil => exact Or.inl ⟨post, by simpa using hp⟩
      | cons x xs =>
        right
        injection hp with h1 h2
        exact ⟨xs, post, h2⟩

/-- The delta of `handle_name_change` is empty iff the stripped full-name
concatenations agree and the observed username exactly equals the stored
one (as an `Option`, so `None` differs from `""`). -/
theorem computeChanges_eq_nil_iff (s : StoredUser) (o : ObservedUser) :
    computeChanges s o = [] ↔
      (oldFullName s = newFullName o ∧ o.username = some s.username) := by
  unfold computeChanges
  by_cases h1 : oldFullName s = newFullName o <;>
    by_cases h2 : o.username = some s.username <;>
      simp [h1, h2]

/-- Possible outcomes of the moderation action of `handle_name_change`
(main.py lines 167-203). -/
inductive Outcome
  | banned
  | kicked
  | skipped
  | failed
deriving DecidableEq

/-- The external-call environment of one moderation attempt:
whether `get_entity`/`get_permissions` succeed, the bot's permission
bits, and whether `edit_permissions` (ban) and `kick_participant`
(kick) succeed. -/
structure ModEnv where
  lookupOk : Bool
  isAdmin : Bool
  banUsers : Bool
  banOk : Bool
  kickOk : Bool
deriving DecidableEq

/-- Outcome of the ban block of `handle_name_change` for one group
(main.py lines 167-203): a failed entity/permission lookup is caught by
the outer `except` (failed); a bot that is neither admin nor has ban
rights `continue`s (skipped); otherwise `edit_permissions` is tried
first (banned) and `kick_participant` is the single fallback (kicked);
if the kick also raises, the outer `except` logs the error (failed). -/
def banOutcome (e : ModEnv) : Outcome :=
  if !e.lookupOk then .failed
  else if !e.isAdmin && !e.banUsers then .skipped
  else if e.banOk then .banned
  else if e.kickOk then .kicked
  else .failed

/-- Observable effects of `handle_name_change`. -/
inductive Event
  | recordHistory (gid : Int)
  | banAttempt (gid : Int)
  | kickAttempt (gid : Int)
  | updateUser
  | alert
deriving DecidableEq

/-- The chat-API calls issued by the ban block for one group: a ban
(`edit_permissions`) is attempted whenever the lookup succeeded and the
bot is admin or has ban rights; the kick is attempted exactly when the
ban call failed. -/
def banEvents (gid : Int) (e : ModEnv) : List Event :=
  if !e.lookupOk then []
  else if !e.isAdmin && !e.banUsers then []
  else if e.banOk then [.banAttempt gid]
  else [.banAttempt gid, .kickAttempt gid]

/-- One active group membership together with the environment its
moderation attempt runs in. -/
structure GroupCtx where
  gid : Int
  env : ModEnv
deriving DecidableEq

/-- One iteration of the `for group in user_groups` loop of
`handle_name_change` (main.py lines 153-203): the history row is written
first (`record_name_change`), then, only if the new name is flagged, the
ban block runs. -/
def groupStep (scam : Bool) (g : GroupCtx) : List Event :=
  Event.recordHistory g.gid :: (if scam then banEvents g.gid g.env else [])

/-- The effect trace of `handle_name_change` once a non-empty delta has
been computed (main.py lines 129-228): early return if the user has no
active groups; otherwise one history row per group (with per-group ban
attempts when flagged), then exactly one `register_user` identity
update, then exactly one consolidated admin alert when flagged. -/
def nameChangeTrace (groups : List GroupCtx) (scam : Bool) : List Event :=
  if groups.isEmpty then []
  else
    (groups.flatMap (groupStep scam)) ++ [Event.updateUser] ++
      (if scam then [Event.alert] else [])

/-- Recognizers for counting events in a trace. -/
def isRecord : Event → Bool
  | .recordHistory _ => true
  | _ => false

def isUpdate : Event → Bool
  | .updateUser => true
  | _ => false

def isAlert : Event → Bool
  | .alert => true
  | _ => false

theorem countP_isRecord_banEvents (gid : Int) (e : ModEnv) :
    (banEvents gid e).countP isRecord = 0 := by
  unfold banEvents
  split <;> [skip; split] <;> [rfl; rfl; skip]
  split <;> simp [List.countP, List.countP.go, isRecord]

theorem filter_isRecord_banEvents (gid : Int) (e : ModEnv) :
    (banEvents gid e).filter isRecord = [] := by
  unfold banEvents
  split <;> [skip; split] <;> [rfl; rfl; skip]
  split <;> simp [List.filter, isRecord]

theorem countP_isUpdate_banEvents (gid : Int) (e : ModEnv) :
    (banEvents gid e).countP isUpdate = 0 := by
  unfold banEvents
  split <;> [skip; split] <;> [rfl; rfl; skip]
  split <;> simp [List.countP, List.countP.go, isUpdate]

theorem countP_isAlert_banEvents (gid : Int) (e : ModEnv) :
    (banEvents gid e).countP isAlert = 0 := by
  unfold banEvents
  split <;> [skip; split] <;> [rfl; rfl; skip]
  split <;> simp [List.countP, List.countP.go, isAlert]

theorem filter_isRecord_bind (groups : List GroupCtx) (scam : Bool) :
    (groups.flatMap (groupStep scam)).filter isRecord =
      groups.map (fun g => Event.recordHistory g.gid) := by
  induction groups with
  | nil => rfl
  | cons g gs ih =>
    simp only [List.flatMap_cons, List.filter_append, ih, List.map_cons]
    unfold groupStep
    split <;>
      simp [List.filter_cons, isRecord, filter_isRecord_banEvents]

theorem countP_isUpdate_bind (groups : List GroupCtx) (scam : Bool) :
    (groups.flatMap (groupStep scam)).countP isUpdate = 0 := by
  induction groups with
  | nil => rfl
  | cons g gs ih =>
    simp only [List.flatMap_cons, List.countP_append, ih]
    unfold groupStep
    split <;>
      simp [List.countP_cons, isUpdate, countP_isUpdate_banEvents]

theorem countP_isAlert_bind (groups : List GroupCtx) (scam : Bool) :
    (groups.flatMap (groupStep scam)).countP isAlert = 0 := by
  induction groups with
  | nil => rfl
  | cons g gs ih =>
    simp only [List.flatMap_cons, List.countP_append, ih]
    unfold groupStep
    split <;>
      simp [List.countP_cons, isAlert, countP_isAlert_banEvents]

/-- C1 (amended): the name-change delta of `handle_name_change` is empty
iff the stripped concatenated full names of the stored and observed
identities agree (with a missing observed first name replaced by
`"Unknown"` and a missing observed last name by `""`) and the observed
username is exactly equal to the stored username string (the comparison
is `str != Optional[str]`, so an observed `None` differs from a stored
empty string).  Field-by-field equality is neither necessary nor
sufficient. -/
theorem delta_empty_iff_fullname_and_username (s : StoredUser) (o : ObservedUser) :
    computeChanges s o = [] ↔
      (oldFullName s = newFullName o ∧ o.username = some s.username) :=
  computeChanges_eq_nil_iff s o

/-- C1 counterexample: for stored identity ("A B", "", "u") and observed
identity (first="A", last="B", username="u") the delta is empty although
the first names (hence the spec's field-by-field comparison) differ:
the reconciler compares concatenated full names, not fields. -/
theorem delta_empty_but_fields_differ :
    computeChanges ⟨"A B", "", "u"⟩ ⟨some "A", some "B", some "u"⟩ = [] ∧
    ¬ specFieldsEqual ⟨"A B", "", "u"⟩ ⟨some "A", some "B", some "u"⟩ := by
  constructor
  · decide
  · decide

/-- C5: the blocklist matcher flags full name `F` against the singleton
blocklist `[B]` iff the lowercased `B` occurs as a contiguous substring
of the lowercased `F`. -/
theorem isFlagged_iff_substring (F B : String) :
    isFlagged F [B] = true ↔
      ∃ pre post, F.toLower.data = pre ++ B.toLower.data ++ post := by
  simp [isFlagged, containsSub_iff]

/-- C9 (amended): re-processing the same observed identity right after
a first pass of `handle_name_change` yields an empty delta provided the
user had at least one active group - only then did the first pass write
the identity back via `register_user` - and the observed username is
present (`username is not None`).  Without an active group the store is
untouched and the same delta recurs; with an observed `None` username
the stored username becomes `""`, which then compares unequal to `None`
forever. -/
theorem second_application_delta_empty (s : StoredUser) (o : ObservedUser)
    (u : String) (h : o.username = some u) :
    computeChanges (storedAfter s o true) o = [] := by
  unfold storedAfter
  by_cases hc : (computeChanges s o).isEmpty = true
  · rw [if_pos hc]
    exact List.isEmpty_iff.mp hc
  · rw [if_neg hc, if_pos rfl]
    rw [computeChanges_eq_nil_iff]
    refine ⟨rfl, ?_⟩
    simp only [updatedStored]
    rw [h]
    by_cases hu : u = "" <;> simp [pyOr, hu]

theorem second_application_delta_empty_witness :
    computeChanges
      (storedAfter ⟨"X", "", "u"⟩ ⟨some "A", some "B", some "u"⟩ true)
      ⟨some "A", some "B", some "u"⟩ = [] :=
  second_application_delta_empty ⟨"X", "", "u"⟩
    ⟨some "A", some "B", some "u"⟩ "u" rfl

/-- C9 counterexample: idempotence fails on reachable inputs in two
ways.  (1) A user with zero active groups: `handle_name_change` returns
without updating the store (main.py lines 135-137), so the second
application of observed ("A", "B", username "u") against stored
("X", "", "u") recomputes the same non-empty delta even though the
username is present.  (2) A user whose observed username is `None`:
even after the store update the stored `""` compares unequal to `None`,
so the delta is non-empty on every application. -/
theorem second_application_delta_nonempty :
    computeChanges
        (storedAfter ⟨"X", "", "u"⟩ ⟨some "A", some "B", some "u"⟩ false)
        ⟨some "A", some "B", some "u"⟩ ≠ [] ∧
    computeChanges
        (storedAfter ⟨"X", "", "u"⟩ ⟨some "A", some "B", none⟩ true)
        ⟨some "A", some "B", none⟩ ≠ [] := by
  constructor <;> decide

/-- C2: once `handle_name_change` has a non-empty delta and the user has
at least one active group, the trace writes exactly one history row per
active group membership (in order), performs exactly one identity
update, that update happens after the whole per-group loop, and exactly
one consolidated alert is sent iff the new identity is flagged. -/
theorem per_group_recording_single_update_alert
    (groups : List GroupCtx) (scam : Bool) (h : groups ≠ []) :
    (nameChangeTrace groups scam).filter isRecord =
        groups.map (fun g => Event.recordHistory g.gid) ∧
    (nameChangeTrace groups scam).countP isUpdate = 1 ∧
    (nameChangeTrace groups scam).countP isAlert = (if scam then 1 else 0) ∧
    ∃ pre post, nameChangeTrace groups scam = pre ++ Event.updateUser :: post ∧
      pre.filter isRecord = groups.map (fun g => Event.recordHistory g.gid) ∧
      post.countP isRecord = 0 ∧ post.countP isUpdate = 0 := by
  have hne : groups.isEmpty = false := by
    cases groups with
    | nil => exact absurd rfl h
    | cons a t => rfl
  unfold nameChangeTrace
  rw [hne]
  simp only [Bool.false_eq_true, if_false]
  refine ⟨?_, ?_, ?_, ?_⟩
  · rw [List.filter_append, List.filter_append, filter_isRecord_bind]
    cases scam <;> simp [isRecord]
  · rw [List.countP_append, List.countP_append, countP_isUpdate_bind]
    cases scam <;> simp [isUpdate, List.countP_cons, List.countP_nil]
  · rw [List.countP_append, List.countP_append, countP_isAlert_bind]
    cases scam <;> simp [isAlert, List.countP_cons, List.countP_nil]
  · refine ⟨groups.flatMap (groupStep scam),
      (if scam then [Event.alert] else []), ?_, ?_, ?_, ?_⟩
    · rw [List.append_assoc, List.singleton_append]
    · exact filter_isRecord_bind groups scam
    · cases scam <;> simp [isRecord, List.countP_cons, List.countP_nil]
    · cases scam <;> simp [isUpdate, List.countP_cons, List.countP_nil]

theorem per_group_recording_single_update_alert_witness :
    (nameChangeTrace [⟨5, ⟨true, true, true, true, true⟩⟩,
        ⟨7, ⟨true, true, true, true, true⟩⟩] true).countP isUpdate = 1 :=
  (per_group_recording_single_update_alert _ true (by decide)).2.1

/-- C4: the moderation action tries the permission-revocation ban first
and falls back to a single kick when the ban call fails; when the bot
has neither admin status nor ban rights the action is skipped with no
chat-API call; and independently of every per-group outcome the history
row precedes the moderation attempt in each group step and the identity
update still occurs exactly once. -/
theorem ban_fallback_and_nonblocking (e : ModEnv) (gid : Int)
    (groups : List GroupCtx) (h : groups ≠ []) :
    (e.lookupOk = true → e.isAdmin = false → e.banUsers = false →
        banOutcome e = .skipped ∧ banEvents gid e = []) ∧
    (e.lookupOk = true → (e.isAdmin = true ∨ e.banUsers = true) →
        e.banOk = true →
        banOutcome e = .banned ∧ banEvents gid e = [.banAttempt gid]) ∧
    (e.lookupOk = true → (e.isAdmin = true ∨ e.banUsers = true) →
        e.banOk = false →
        banEvents gid e = [.banAttempt gid, .kickAttempt gid] ∧
        banOutcome e = (if e.kickOk then .kicked else .failed)) ∧
    (∀ g ∈ groups, (groupStep true g).head? = some (.recordHistory g.gid)) ∧
    (nameChangeTrace groups true).countP isUpdate = 1 := by
  refine ⟨?_, ?_, ?_, ?_, ?_⟩
  · intro h1 h2 h3
    constructor <;> simp [banOutcome, banEvents, h1, h2, h3]
  · intro h1 h2 h3
    rcases h2 with h2 | h2 <;>
      constructor <;> simp [banOutcome, banEvents, h1, h2, h3]
  · intro h1 h2 h3
    rcases h2 with h2 | h2 <;>
      constructor <;> simp [banOutcome, banEvents, h1, h2, h3]
  · intro g _
    rfl
  · have hne : groups.isEmpty = false := by
      cases groups with
      | nil => exact absurd rfl h
      | cons a t => rfl
    unfold nameChangeTrace
    rw [hne]
    simp only [Bool.false_eq_true, if_false]
    rw [List.countP_append, List.countP_append, countP_isUpdate_bind]
    simp [isUpdate, List.countP_cons, List.countP_nil]

theorem ban_fallback_and_nonblocking_witness :
    banOutcome ⟨true, true, false, false, true⟩ = .kicked :=
  ((ban_fallback_and_nonblocking ⟨true, true, false, false, true⟩ 5
      [⟨5, ⟨true, true, false, false, true⟩⟩] (by decide)).2.2.1
    rfl (Or.inl rfl) rfl).2

/-- Observable effects of `handle_user_join` (main.py lines 235-367). -/
inductive JEvent
  | registerGroup
  | blocklistCheck
  | banAttempt
  | kickAttempt
  | alertAdmin
  | registerUser
  | addMembership
deriving DecidableEq

/-- The effect trace of `handle_user_join` (main.py lines 235-367) for a
group event with a resolvable chat and user: the group is registered
first (early return when that fails), then the blocklist is evaluated on
the joining user's full name; on a match the ban block runs (permission
lookup, `edit_permissions`, fallback `kick_participant`, admin alert on
success) and the handler returns without touching the `users` or
`user_groups` tables; on a clean name `register_user` runs and, when it
succeeds, `add_user_to_group`. -/
def userJoinTrace (groupRegOk flagged : Bool) (env : ModEnv)
    (regUserOk : Bool) : List JEvent :=
  JEvent.registerGroup ::
    (if !groupRegOk then []
     else JEvent.blocklistCheck ::
       (if flagged then
          (if !env.lookupOk then []
           else if !env.isAdmin && !env.banUsers then []
           else if env.banOk then [.banAttempt, .alertAdmin]
           else if env.kickOk then [.banAttempt, .kickAttempt, .alertAdmin]
           else [.banAttempt, .kickAttempt])
        else JEvent.registerUser ::
          (if regUserOk then [.addMembership] else [])))

set_option synthInstance.maxSize 2000 in
/-- C3 (amended): on a join signal the blocklist verdict is computed
before any user or membership row is persisted (no `registerUser` or
`addMembership` effect precedes the `blocklistCheck` effect); when the
name is flagged no user row and no membership row is ever written, and
a ban is attempted exactly when the name is flagged, the group
registration succeeded, the permission lookup succeeds, and the bot is
admin or has ban rights (in every other case no ban call is made); when
the name is clean and the store writes succeed, both the user row and
the membership row are written. -/
theorem join_blocklist_before_persistence (gOk flagged : Bool)
    (env : ModEnv) (uOk : Bool) :
    (JEvent.registerUser ∉
        (userJoinTrace gOk flagged env uOk).takeWhile
          (fun e => !(e == JEvent.blocklistCheck)) ∧
      JEvent.addMembership ∉
        (userJoinTrace gOk flagged env uOk).takeWhile
          (fun e => !(e == JEvent.blocklistCheck))) ∧
    (flagged = true →
        JEvent.registerUser ∉ userJoinTrace gOk flagged env uOk ∧
        JEvent.addMembership ∉ userJoinTrace gOk flagged env uOk) ∧
    (JEvent.banAttempt ∈ userJoinTrace gOk flagged env uOk ↔
        (flagged = true ∧ gOk = true ∧ env.lookupOk = true ∧
          (env.isAdmin = true ∨ env.banUsers = true))) ∧
    (flagged = false → gOk = true → uOk = true →
        JEvent.registerUser ∈ userJoinTrace gOk flagged env uOk ∧
        JEvent.addMembership ∈ userJoinTrace gOk flagged env uOk) := by
  obtain ⟨lo, ad, bu, bo, ko⟩ := env
  cases gOk <;> cases flagged <;> cases uOk <;> cases lo <;> cases ad <;>
    cases bu <;> cases bo <;> cases ko <;> decide

theorem join_blocklist_before_persistence_witness :
    JEvent.registerUser ∈
      userJoinTrace true false ⟨true, true, true, true, true⟩ true :=
  ((join_blocklist_before_persistence true false
      ⟨true, true, true, true, true⟩ true).2.2.2 rfl rfl rfl).1

/-- C3 counterexample: on a flagged join where the bot lacks both admin
status and ban rights, `handle_user_join` returns without attempting any
ban (no `edit_permissions` call), so "a ban is attempted immediately"
does not hold for every flagged join. -/
theorem join_flagged_without_rights_no_ban :
    JEvent.banAttempt ∉
      userJoinTrace true true ⟨true, false, false, true, true⟩ true := by
  decide

/-- A row of the `users` table (database.py lines 23-32). -/
structure UserRow where
  uid : Int
  first : String
  last : String
  uname : String
  active : Bool
deriving DecidableEq

/-- A row of the `user_groups` table (database.py lines 46-57):
composite key (user_id, group_id), `is_active`, `last_seen` (a
timestamp, modelled as a natural-number clock value). -/
structure MemRow where
  uid : Int
  gid : Int
  active : Bool
  lastSeen : Nat
deriving DecidableEq

/-- The mutable part of the store touched by the user/membership
operations. -/
structure DBState where
  users : List UserRow
  mems : List MemRow
deriving DecidableEq

/-- `SELECT COUNT(*) FROM user_groups WHERE user_id = ? AND is_active = 1`
(database.py lines 393-397). -/
def activeMemCount (db : DBState) (uid : Int) : Nat :=
  db.mems.countP (fun m => m.uid == uid && m.active)

/-- `Database.register_user` (database.py lines 213-225):
`INSERT OR REPLACE INTO users (user_id, first_name, last_name, username)`.
`REPLACE` deletes any row with the same primary key and inserts a fresh
row whose omitted `is_active` column takes the schema default `1`. -/
def register_user (db : DBState) (uid : Int) (f l un : String) : DBState :=
  { db with
    users := ⟨uid, f, l, un, true⟩ :: db.users.filter (fun u => !(u.uid == uid)) }

/-- `UPDATE users SET is_active = ? WHERE user_id = ?`. -/
def setUserActive (users : List UserRow) (uid : Int) (b : Bool) : List UserRow :=
  users.map fun u => if u.uid == uid then { u with active := b } else u

/-- `Database.add_user_to_group` (database.py lines 227-279): normalize
the group id with `abs`, force the user row active, then either
reactivate an existing membership row (matching on `ABS(group_id)`),
leave an already-active row alone, or insert a fresh row with the
normalized group id; reactivation and insertion stamp the current
time. -/
def addMems (mems : List MemRow) (uid gid : Int) (now : Nat) : List MemRow :=
  match mems.find? (fun m => m.uid == uid && m.gid.natAbs == gid.natAbs) with
  | some m =>
    if m.active then mems
    else
      mems.map fun m2 =>
        if m2.uid == uid && m2.gid.natAbs == gid.natAbs then
          { m2 with active := true, lastSeen := now }
        else m2
  | none => ⟨uid, (gid.natAbs : Int), true, now⟩ :: mems

def add_user_to_group (db : DBState) (uid gid : Int) (now : Nat) : DBState :=
  ⟨setUserActive db.users uid true, addMems db.mems uid gid now⟩

/-- `Database.remove_user_from_group` (database.py lines 380-412):
deactivate the membership rows matching the **raw** group id (no `ABS`
in this query), stamping `last_seen`; afterwards, if the user has no
remaining active membership, deactivate the user row. -/
def deactivateMems (mems : List MemRow) (uid gid : Int) (now : Nat) : List MemRow :=
  mems.map fun m =>
    if m.uid == uid && m.gid == gid then
      { m with active := false, lastSeen := now }
    else m

def remove_user_from_group (db : DBState) (uid gid : Int) (now : Nat) : DBState :=
  ⟨if (deactivateMems db.mems uid gid now).countP
        (fun m => m.uid == uid && m.active) = 0 then
      setUserActive db.users uid false
    else db.users,
    deactivateMems db.mems uid gid now⟩

/-- The columns of the `name_changes` table as created by
`Database.create_tables` (database.py lines 60-75); `migrate_database`
only creates its alternative schema when the table is absent
(database.py lines 547-561), which it never is after `create_tables`. -/
def nameChangesColumns : List String :=
  ["id", "user_id", "group_id", "old_first_name", "old_last_name",
   "old_username", "new_first_name", "new_last_name", "new_username",
   "changed_at"]

/-- The columns targeted by the history `INSERT` of
`Database.update_user` (database.py lines 452-456). -/
def updateUserInsertColumns : List String :=
  ["user_id", "change_type", "old_value", "new_value", "changed_at"]

/-- The history insert of `update_user` succeeds only if every column it
names exists in the `name_changes` table; otherwise sqlite raises and
the surrounding transaction rolls back. -/
def updateUserInsertOk : Bool :=
  updateUserInsertColumns.all (nameChangesColumns.contains ·)

/-- Python truthiness of an optional string (`if username`). -/
def pyTruthy (x : Option String) : Bool :=
  match x with
  | none => false
  | some s => !(s == "")

/-- `Database.update_user` (database.py lines 430-470): look up the user
row; collect a change tuple per differing field (the username only when
the passed username is truthy); if any change was collected the history
`INSERT` runs - raising on the mismatched `name_changes` schema, rolling
the whole transaction back and returning `False`; with no change
collected the `UPDATE users` rewrites the row (username normalized by
`username or ""`) and the call returns `True`. -/
def update_user (db : DBState) (uid : Int) (f l : String)
    (un : Option String) : DBState × Bool :=
  match db.users.find? (fun v => v.uid == uid) with
  | none =>
    (db, true)
  | some u =>
    let hasChanges := (!(u.first == f)) || (!(u.last == l)) ||
      (pyTruthy un && !(u.uname == pyOr un ""))
    if hasChanges && !updateUserInsertOk then (db, false)
    else
      (⟨db.users.map fun v =>
          if v.uid == uid then { v with first := f, last := l, uname := pyOr un "" }
          else v,
        db.mems⟩, true)

/-- The store operations reachable from the bot's handlers. -/
inductive DbOp
  | register (uid : Int) (f l un : String)
  | addToGroup (uid gid : Int) (now : Nat)
  | removeFromGroup (uid gid : Int) (now : Nat)
  | update (uid : Int) (f l : String) (un : Option String)

def applyOp (db : DBState) : DbOp → DBState
  | .register uid f l un => register_user db uid f l un
  | .addToGroup uid gid now => add_user_to_group db uid gid now
  | .removeFromGroup uid gid now => remove_user_from_group db uid gid now
  | .update uid f l un => (update_user db uid f l un).1

/-- The store starts out with empty `users` and `user_groups` tables. -/
def initialDB : DBState := ⟨[], []⟩

def applyOps (ops : List DbOp) : DBState := ops.foldl applyOp initialDB

/-- The invariant direction that does hold: an inactive user row has no
active membership row. -/
def InactiveNoMems (db : DBState) : Prop :=
  ∀ u ∈ db.users, u.active = false → activeMemCount db u.uid = 0

theorem countP_map_eq_of_pres {α : Type} (f : α → α) (p : α → Bool) (l : List α)
    (h : ∀ a, p (f a) = p a) :
    (l.map f).countP p = l.countP p := by
  rw [List.countP_map]
  exact List.countP_congr (fun a _ => by simp [Function.comp, h a])

theorem countP_map_le_of_imp {α : Type} (f : α → α) (p : α → Bool) (l : List α)
    (h : ∀ a, p (f a) = true → p a = true) :
    (l.map f).countP p ≤ l.countP p := by
  rw [List.countP_map]
  exact List.countP_mono_left (fun a _ ha => h a ha)

theorem activeMemCount_addMems_other (mems : List MemRow) (uid gid : Int)
    (now : Nat) (w : Int) (hw : w ≠ uid) :
    (addMems mems uid gid now).countP (fun m => m.uid == w && m.active) =
      mems.countP (fun m => m.uid == w && m.active) := by
  unfold addMems
  cases hfind : mems.find? (fun m => m.uid == uid && m.gid.natAbs == gid.natAbs) with
  | none =>
    dsimp only
    rw [List.countP_cons_of_neg]
    simp [hw.symm]
  | some m =>
    dsimp only
    split
    · rfl
    · refine countP_map_eq_of_pres _ _ _ (fun a => ?_)
      by_cases hc : (a.uid == uid && a.gid.natAbs == gid.natAbs) = true
      · have ha : a.uid = uid := by
          have := (Bool.and_eq_true _ _).mp hc
          exact beq_iff_eq.mp this.1
        have hwa : (a.uid == w) = false := by
          simp only [ha, beq_eq_false_iff_ne, ne_eq]
          exact fun hh => hw hh.symm
        simp [hc, hwa]
      · simp [hc]

theorem activeMemCount_deactivateMems_other (mems : List MemRow) (uid gid : Int)
    (now : Nat) (w : Int) (hw : w ≠ uid) :
    (deactivateMems mems uid gid now).countP (fun m => m.uid == w && m.active) =
      mems.countP (fun m => m.uid == w && m.active) := by
  unfold deactivateMems
  refine countP_map_eq_of_pres _ _ _ (fun a => ?_)
  by_cases hc : (a.uid == uid && a.gid == gid) = true
  · have ha : a.uid = uid := by
      have := (Bool.and_eq_true _ _).mp hc
      exact beq_iff_eq.mp this.1
    have hwa : (a.uid == w) = false := by
      simp only [ha, beq_eq_false_iff_ne, ne_eq]
      exact fun hh => hw hh.symm
    simp [hc, hwa]
  · simp [hc]

theorem activeMemCount_deactivateMems_le (mems : List MemRow) (uid gid : Int)
    (now : Nat) (w : Int) :
    (deactivateMems mems uid gid now).countP (fun m => m.uid == w && m.active) ≤
      mems.countP (fun m => m.uid == w && m.active) := by
  unfold deactivateMems
  refine countP_map_le_of_imp _ _ _ (fun a ha => ?_)
  by_cases hc : (a.uid == uid && a.gid == gid) = true
  · simp [hc] at ha
  · simpa [hc] using ha

theorem register_user_preserves (db : DBState) (uid : Int) (f l un : String)
    (h : InactiveNoMems db) :
    InactiveNoMems (register_user db uid f l un) := by
  intro u hu hact
  unfold register_user at hu
  simp only [List.mem_cons] at hu
  rcases hu with rfl | hu
  · simp at hact
  · exact h u (List.mem_of_mem_filter hu) hact

theorem update_user_preserves (db : DBState) (uid : Int) (f l : String)
    (un : Option String) (h : InactiveNoMems db) :
    InactiveNoMems (update_user db uid f l un).1 := by
  unfold update_user
  cases hfind : db.users.find? (fun v => v.uid == uid) with
  | none => exact h
  | some u0 =>
    dsimp only
    split
    · exact h
    · intro u hu hact
      simp only [List.mem_map] at hu
      obtain ⟨v, hv, rfl⟩ := hu
      by_cases hvu : (v.uid == uid) = true
      · simp only [hvu, if_true] at hact ⊢
        exact h v hv hact
      · simp only [hvu, Bool.false_eq_true, if_false] at hact ⊢
        exact h v hv hact

theorem add_user_to_group_preserves (db : DBState) (uid gid : Int) (now : Nat)
    (h : InactiveNoMems db) :
    InactiveNoMems (add_user_to_group db uid gid now) := by
  intro u hu hact
  unfold add_user_to_group at hu
  simp only [setUserActive, List.mem_map] at hu
  obtain ⟨v, hv, rfl⟩ := hu
  by_cases hvu : (v.uid == uid) = true
  · simp only [hvu, if_true] at hact
    exact absurd hact (by decide)
  · simp only [hvu, Bool.false_eq_true, if_false] at hact ⊢
    have hne : v.uid ≠ uid := by simpa using hvu
    show (addMems db.mems uid gid now).countP
      (fun m => m.uid == v.uid && m.active) = 0
    rw [activeMemCount_addMems_other db.mems uid gid now v.uid hne]
    exact h v hv hact

theorem remove_user_from_group_preserves (db : DBState) (uid gid : Int)
    (now : Nat) (h : InactiveNoMems db) :
    InactiveNoMems (remove_user_from_group db uid gid now) := by
  intro u hu hact
  unfold remove_user_from_group at hu
  by_cases hcnt : (deactivateMems db.mems uid gid now).countP
      (fun m => m.uid == uid && m.active) = 0
  · simp only [hcnt, if_true, setUserActive, List.mem_map] at hu
    obtain ⟨v, hv, rfl⟩ := hu
    by_cases hvu : (v.uid == uid) = true
    · have hvueq : v.uid = uid := beq_iff_eq.mp hvu
      show (deactivateMems db.mems uid gid now).countP _ = 0
      simp only [hvu, if_true]
      simpa [hvueq] using hcnt
    · simp only [hvu, Bool.false_eq_true, if_false] at hact
      have hne : v.uid ≠ uid := by simpa using hvu
      show (deactivateMems db.mems uid gid now).countP _ = 0
      simp only [hvu, Bool.false_eq_true, if_false]
      rw [activeMemCount_deactivateMems_other db.mems uid gid now _ hne]
      exact h v hv hact
  · simp only [hcnt, if_false] at hu
    by_cases hvu : (u.uid == uid) = true
    · have hvueq : u.uid = uid := beq_iff_eq.mp hvu
      show (deactivateMems db.mems uid gid now).countP _ = 0
      have hle := activeMemCount_deactivateMems_le db.mems uid gid now u.uid
      have hz : activeMemCount db u.uid = 0 := h u hu hact
      unfold activeMemCount at hz
      omega
    · have hne : u.uid ≠ uid := by simpa using hvu
      show (deactivateMems db.mems uid gid now).countP _ = 0
      rw [activeMemCount_deactivateMems_other db.mems uid gid now _ hne]
      exact h u hu hact

theorem applyOp_preserves (db : DBState) (op : DbOp) (h : InactiveNoMems db) :
    InactiveNoMems (applyOp db op) := by
  cases op with
  | register uid f l un => exact register_user_preserves db uid f l un h
  | addToGroup uid gid now => exact add_user_to_group_preserves db uid gid now h
  | removeFromGroup uid gid now =>
    exact remove_user_from_group_preserves db uid gid now h
  | update uid f l un => exact update_user_preserves db uid f l un h

theorem foldl_applyOp_preserves (ops : List DbOp) :
    ∀ db : DBState, InactiveNoMems db → InactiveNoMems (ops.foldl applyOp db) := by
  induction ops with
  | nil => intro db h; exact h
  | cons op rest ih => intro db h; exact ih _ (applyOp_preserves db op h)

theorem initialDB_invariant : InactiveNoMems initialDB := by
  intro u hu
  cases hu

/-- C6 (amended): in every state reachable from the empty store through
`register_user`, `add_user_to_group`, `remove_user_from_group` and
`update_user`, a user row with `is_active = 0` has zero active
membership rows.  Only this direction of the claimed equivalence holds:
`register_user` happily stores an active user with no membership at all
(see the counterexample), so zero active memberships does not force
`is_active = 0`. -/
theorem inactive_user_has_no_active_memberships (ops : List DbOp)
    (u : UserRow) (hu : u ∈ (applyOps ops).users) (hact : u.active = false) :
    activeMemCount (applyOps ops) u.uid = 0 :=
  foldl_applyOp_preserves ops initialDB initialDB_invariant u hu hact

theorem inactive_user_has_no_active_memberships_witness :
    activeMemCount (applyOps [DbOp.register 1 "A" "" "",
      DbOp.addToGroup 1 5 0, DbOp.removeFromGroup 1 5 1]) 1 = 0 :=
  inactive_user_has_no_active_memberships
    [DbOp.register 1 "A" "" "", DbOp.addToGroup 1 5 0,
      DbOp.removeFromGroup 1 5 1]
    ⟨1, "A", "", "", false⟩ (by decide) rfl

/-- C6 counterexample: `handle_name_change` registers a previously
unknown user without any membership (main.py lines 98-108), i.e. a
single `register_user` from the empty store; the resulting user row has
`is_active = 1` yet zero active membership rows, refuting the "iff"
direction "zero active memberships implies `is_active = 0`". -/
theorem active_user_with_zero_memberships :
    (⟨1, "A", "", "", true⟩ : UserRow) ∈
        (applyOps [DbOp.register 1 "A" "" ""]).users ∧
    activeMemCount (applyOps [DbOp.register 1 "A" "" ""]) 1 = 0 ∧
    ¬ (∀ u ∈ (applyOps [DbOp.register 1 "A" "" ""]).users,
        (u.active = false ↔
          activeMemCount (applyOps [DbOp.register 1 "A" "" ""]) u.uid = 0)) := by
  refine ⟨by decide, by decide, ?_⟩
  decide

/-- A row of the `groups` table (database.py lines 35-43). -/
structure GroupRow where
  gid : Int
  name : String
  active : Bool
deriving DecidableEq

/-- `Database.register_group` (database.py lines 78-127): normalize the
incoming id with `abs`; if an active group with the same name exists,
adopt the new normalized id when it differs (name-based identifier
migration); otherwise look the group up by `ABS(group_id)` and refresh
its name; otherwise insert a fresh row with the normalized id. -/
def register_group (groups : List GroupRow) (gid : Int) (name : String) :
    List GroupRow :=
  match groups.find? (fun r => r.name == name && r.active) with
  | some r =>
    if r.gid.natAbs ≠ gid.natAbs then
      groups.map fun r2 =>
        if r2.name == name then { r2 with gid := (gid.natAbs : Int) } else r2
    else groups
  | none =>
    match groups.find? (fun r => r.gid.natAbs == gid.natAbs) with
    | some r =>
      if r.name ≠ name then
        groups.map fun r2 =>
          if r2.gid.natAbs == gid.natAbs then { r2 with name := name } else r2
      else groups
    | none => ⟨(gid.natAbs : Int), name, true⟩ :: groups

/-- C7: `register_group` depends on the group id only through its
absolute value, and registering `-1001234` and then `1001234` under the
same name leaves exactly one stored group row; an active group with a
matching name also absorbs a registration arriving under an entirely
different numeric id. -/
theorem register_group_absolute_value_dedup :
    (∀ (gs : List GroupRow) (gid : Int) (name : String),
        register_group gs gid name =
          register_group gs (gid.natAbs : Int) name) ∧
    register_group (register_group [] (-1001234) "G") 1001234 "G" =
      [⟨1001234, "G", true⟩] ∧
    register_group (register_group [] (-100) "G") 555 "G" =
      [⟨555, "G", true⟩] := by
  refine ⟨?_, by decide, by decide⟩
  intro gs gid name
  unfold register_group
  simp only [Int.natAbs_ofNat]

/-- C10 (amended): whenever `update_user` detects a change - differing
first name, differing last name, or a truthy passed username differing
from the stored one - its history insert names columns absent from the
`name_changes` schema that `create_tables` built, so the insert raises,
the transaction rolls back and the call returns `False` with the users
row untouched.  A differing stored username alone does not trigger this
when the passed username is `None` or empty: no change is detected and
the row is silently rewritten (see the counterexample). -/
theorem update_user_detected_change_rolls_back (db : DBState) (uid : Int)
    (f l : String) (un : Option String) (u : UserRow)
    (hfind : db.users.find? (fun v => v.uid == uid) = some u)
    (hch : u.first ≠ f ∨ u.last ≠ l ∨
      (pyTruthy un = true ∧ u.uname ≠ pyOr un "")) :
    updateUserInsertOk = false ∧ update_user db uid f l un = (db, false) := by
  refine ⟨by decide, ?_⟩
  unfold update_user
  rw [hfind]
  dsimp only
  have hok : updateUserInsertOk = false := by decide
  have hchb : ((!(u.first == f)) || (!(u.last == l)) ||
      (pyTruthy un && !(u.uname == pyOr un ""))) = true := by
    rcases hch with h | h | ⟨h1, h2⟩
    · simp [h]
    · simp [h]
    · simp [h1, h2]
  rw [hok, hchb]
  rfl

theorem update_user_detected_change_rolls_back_witness :
    update_user ⟨[⟨1, "A", "B", "x", true⟩], []⟩ 1 "C" "B" none =
      (⟨[⟨1, "A", "B", "x", true⟩], []⟩, false) :=
  (update_user_detected_change_rolls_back ⟨[⟨1, "A", "B", "x", true⟩], []⟩
    1 "C" "B" none ⟨1, "A", "B", "x", true⟩ (by decide)
    (Or.inl (by decide))).2

/-- C10 counterexample: names equal, stored username `"x"`, passed
username empty (falsy).  `update_user` collects no change, the failing
history insert never runs, and the call returns `True` after rewriting
the row - the stored username silently becomes `""` although it
differed from the passed value, contradicting "returns False and leaves
the users row unchanged" for every differing field. -/
theorem update_user_empty_username_overwrites :
    ("x" : String) ≠ "" ∧
    update_user ⟨[⟨1, "A", "B", "x", true⟩], []⟩ 1 "A" "B" (some "") =
      (⟨[⟨1, "A", "B", "", true⟩], []⟩, true) ∧
    ¬ (update_user ⟨[⟨1, "A", "B", "x", true⟩], []⟩ 1 "A" "B" (some "") =
        (⟨[⟨1, "A", "B", "x", true⟩], []⟩, false)) := by
  refine ⟨by decide, by decide, ?_⟩
  decide

/-- The membership rows of one (user, group) pair, the group id compared
through `ABS` exactly as `add_user_to_group` compares it. -/
def pairMems (db : DBState) (uid gid : Int) : List MemRow :=
  db.mems.filter (fun m => m.uid == uid && m.gid.natAbs == gid.natAbs)

theorem find?_eq_head_filter {α : Type} (p : α → Bool) (l : List α) :
    l.find? p = (l.filter p).head? := by
  induction l with
  | nil => rfl
  | cons a t ih =>
    by_cases h : p a = true
    · rw [List.find?_cons_of_pos t h, List.filter_cons_of_pos h]
      rfl
    · rw [List.find?_cons_of_neg t h, List.filter_cons_of_neg h, ih]

theorem filter_map_pres {α : Type} (f : α → α) (p : α → Bool) (l : List α)
    (h : ∀ a, p (f a) = p a) :
    (l.map f).filter p = (l.filter p).map f := by
  rw [List.filter_map]
  congr 1
  exact List.filter_congr (fun a _ => by simpa [Function.comp] using h a)

/-- C8: deactivating a membership (`remove_user_from_group`) and then
re-adding it (`add_user_to_group`) leaves exactly one membership row
for the (user, group) pair: `is_active = 1` and `last_seen` refreshed
to the re-join time; the re-join reactivates the stored row (or first
creates it) instead of inserting a duplicate.  The hypotheses record
the shape of reachable membership tables: stored group ids are
normalized non-negative, the caller passes the normalized id, and the
pair occupies at most one row. -/
theorem leave_rejoin_one_active_row (db : DBState) (u g : Int) (t1 t2 : Nat)
    (hg : 0 ≤ g) (hmems : ∀ m ∈ db.mems, 0 ≤ m.gid)
    (huniq : (pairMems db u g).length ≤ 1) :
    pairMems (add_user_to_group (remove_user_from_group db u g t1) u g t2) u g
      = [⟨u, g, true, t2⟩] := by
  have hpres_f : ∀ a : MemRow,
      ((if a.uid == u && a.gid == g then
          { a with active := false, lastSeen := t1 } else a).uid == u &&
        (if a.uid == u && a.gid == g then
          { a with active := false, lastSeen := t1 } else a).gid.natAbs ==
          g.natAbs)
        = (a.uid == u && a.gid.natAbs == g.natAbs) := by
    intro a
    by_cases hc : (a.uid == u && a.gid == g) = true <;> simp [hc]
  have hpres_r : ∀ a : MemRow,
      ((if a.uid == u && a.gid.natAbs == g.natAbs then
          { a with active := true, lastSeen := t2 } else a).uid == u &&
        (if a.uid == u && a.gid.natAbs == g.natAbs then
          { a with active := true, lastSeen := t2 } else a).gid.natAbs ==
          g.natAbs)
        = (a.uid == u && a.gid.natAbs == g.natAbs) := by
    intro a
    by_cases hc : (a.uid == u && a.gid.natAbs == g.natAbs) = true <;> simp [hc]
  have hfilterM1 : (deactivateMems db.mems u g t1).filter
      (fun m => m.uid == u && m.gid.natAbs == g.natAbs) =
      (db.mems.filter (fun m => m.uid == u && m.gid.natAbs == g.natAbs)).map
        (fun m => if m.uid == u && m.gid == g then
          { m with active := false, lastSeen := t1 } else m) := by
    unfold deactivateMems
    exact filter_map_pres _ _ _ hpres_f
  have hqm : ∀ m ∈ db.mems.filter
      (fun m => m.uid == u && m.gid.natAbs == g.natAbs),
      m.uid = u ∧ m.gid = g := by
    intro m hm
    rw [List.mem_filter] at hm
    obtain ⟨hmem, hq⟩ := hm
    rw [Bool.and_eq_true, beq_iff_eq, beq_iff_eq] at hq
    refine ⟨hq.1, ?_⟩
    have := hmems m hmem
    omega
  show (addMems (deactivateMems db.mems u g t1) u g t2).filter
      (fun m => m.uid == u && m.gid.natAbs == g.natAbs) = [⟨u, g, true, t2⟩]
  rcases hsplit : db.mems.filter
      (fun m => m.uid == u && m.gid.natAbs == g.natAbs) with _ | ⟨m, rest⟩
  · have hfind : (deactivateMems db.mems u g t1).find?
        (fun m => m.uid == u && m.gid.natAbs == g.natAbs) = none := by
      rw [find?_eq_head_filter, hfilterM1, hsplit]
      rfl
    unfold addMems
    rw [hfind]
    dsimp only
    rw [List.filter_cons_of_pos (by simp [Int.natAbs_abs]), hfilterM1, hsplit]
    dsimp only [List.map_nil]
    rw [Int.natAbs_of_nonneg hg]
  · have hrest : rest = [] := by
      unfold pairMems at huniq
      rw [hsplit] at huniq
      simp only [List.length_cons] at huniq
      cases rest with
      | nil => rfl
      | cons b t => simp at huniq
    subst hrest
    have hm : m.uid = u ∧ m.gid = g := by
      apply hqm
      rw [hsplit]
      exact List.mem_cons_self m []
    have hfm : (if m.uid == u && m.gid == g then
        { m with active := false, lastSeen := t1 } else m) =
        { m with active := false, lastSeen := t1 } := by
      rw [if_pos]
      simp [hm.1, hm.2]
    have hfind : (deactivateMems db.mems u g t1).find?
        (fun m => m.uid == u && m.gid.natAbs == g.natAbs) =
        some { m with active := false, lastSeen := t1 } := by
      rw [find?_eq_head_filter, hfilterM1, hsplit]
      dsimp only [List.map_cons, List.head?_cons]
      rw [hfm]
    unfold addMems
    rw [hfind]
    dsimp only
    rw [if_neg (by simp)]
    rw [filter_map_pres _ _ _ hpres_r, hfilterM1, hsplit]
    dsimp only [List.map_cons, List.map_nil]
    rw [hfm]
    rw [if_pos (by simp [hm.1, hm.2])]
    simp [hm.1, hm.2]

theorem leave_rejoin_one_active_row_witness :
    pairMems (add_user_to_group
      (remove_user_from_group ⟨[⟨1, "A", "", "", true⟩], [⟨1, 5, true, 0⟩]⟩
        1 5 1) 1 5 2) 1 5 = [⟨1, 5, true, 2⟩] :=
  leave_rejoin_one_active_row ⟨[⟨1, "A", "", "", true⟩], [⟨1, 5, true, 0⟩]⟩
    1 5 1 2 (by decide) (by decide) (by decide)
